import Mathlib

/-!
Shallow embedding of the transaction-validation strategy engine of the
OperationalHooks repository (heartland-webhook).

Dynamically typed JavaScript field values are modelled by `JValue`; JS numbers
are modelled as exact rationals (`ℚ`).  Asynchronous computations that may
throw are modelled as `Except Unit`: `Except.error ()` stands for a thrown or
rejected error.  The orchestrator `evaluateChecks`, the concrete strategies
and their helpers are translated from `heartland-webhook/src/index.ts`,
`src/strategies/inventory-non-negative-strategy.ts`,
`src/strategies/high-discount-ticket-strategy.ts` and
`src/strategies/price-adjusted-item-strategy.ts`.
-/

/-- A JavaScript runtime value, as far as the webhook code inspects one:
null, undefined, a boolean, a (finite) number, or a string. -/
inductive JValue where
  | null
  | undef
  | bool (b : Bool)
  | num (q : ℚ)
  | str (s : String)
deriving DecidableEq

/-- typeof v === 'number'. -/
def JValue.isNum : JValue → Bool
  | .num _ => true
  | _ => false

/-- The numeric value, when typeof v === 'number'. -/
def JValue.asNum : JValue → Option ℚ
  | .num q => some q
  | _ => none

/-- typeof v === 'string'. -/
def JValue.isStr : JValue → Bool
  | .str _ => true
  | _ => false

/-- typeof v === 'boolean'. -/
def JValue.isBool : JValue → Bool
  | .bool _ => true
  | _ => false

/-- JavaScript truthiness.  NaN does not occur in this model, so a number is
falsy exactly when it is zero. -/
def JValue.truthy : JValue → Bool
  | .null => false
  | .undef => false
  | .bool b => b
  | .num q => decide (q ≠ 0)
  | .str s => decide (s ≠ "")

/-- JavaScript a ?? b: b when a is null or undefined, else a. -/
def JValue.coalesce : JValue → JValue → JValue
  | .null, b => b
  | .undef, b => b
  | a, _ => a

/-- JavaScript a || b: a when a is truthy, else b. -/
def JValue.jsOr (a b : JValue) : JValue :=
  if a.truthy then a else b

/-- String rendering of a value inside a template literal (display only;
no theorem depends on the exact text). -/
def JValue.render : JValue → String
  | .null => "null"
  | .undef => "undefined"
  | .bool b => toString b
  | .num q => toString q
  | .str s => s

/-- JavaScript's String.prototype.toLowerCase on the basic latin letters the
webhook compares against (a structurally recursive model, since the statuses
involved are ASCII). -/
def jsToLowerCase (s : String) : String :=
  String.mk (s.data.map Char.toLower)

/-- A Heartland webhook transaction (src/model.ts `HeartlandTransaction`).
Every field the strategy engine reads is kept dynamically typed, since the
payload is parsed from arbitrary JSON; a missing field is `JValue.undef`. -/
structure HeartlandTransaction where
  id : JValue := .undef
  type : JValue := .undef
  total : JValue := .undef
  source_location_id : JValue := .undef
  status : JValue := .undef
  completed_at : JValue := .undef
  local_completed_at : JValue := .undef
  completed? : JValue := .undef
  balance : JValue := .undef
  original_subtotal : JValue := .undef
  total_discounts : JValue := .undef
deriving DecidableEq

/-- Per-strategy report entry (src/model.ts `CheckSummary`). -/
structure CheckSummary where
  name : String
  executed : Bool
  passed : Bool
deriving DecidableEq

/-- The strategy interface (src/model.ts `TransactionCompletionStrategy`).
`checkTx` is asynchronous and may throw; a thrown/rejected error is
`Except.error ()`. -/
structure TransactionCompletionStrategy where
  name : String
  supports : HeartlandTransaction → Bool
  checkTx : HeartlandTransaction → Except Unit Bool

/-- The record returned by `evaluateChecks`. -/
structure EvaluateChecksResult where
  check : Bool
  checks : List CheckSummary
deriving DecidableEq

/-- The for-loop body of `evaluateChecks` (src/index.ts), threading the
source's `overall`, `anyExecuted` and `checks` mutable variables as
accumulators.  The try/catch around `strategy.checkTx` becomes the match on
`Except`: an error is logged and treated as `passed = false`. -/
def evaluateChecksLoop (tx : HeartlandTransaction) :
    List TransactionCompletionStrategy → Bool → Bool → List CheckSummary →
    Bool × Bool × List CheckSummary
  | [], overall, anyExecuted, checks => (overall, anyExecuted, checks)
  | strategy :: rest, overall, anyExecuted, checks =>
    if strategy.supports tx then
      match strategy.checkTx tx with
      | Except.ok passed =>
        evaluateChecksLoop tx rest (overall && passed) true
          (checks ++ [{ name := strategy.name, executed := true, passed := passed }])
      | Except.error _ =>
        evaluateChecksLoop tx rest (overall && false) true
          (checks ++ [{ name := strategy.name, executed := true, passed := false }])
    else
      evaluateChecksLoop tx rest overall anyExecuted
        (checks ++ [{ name := strategy.name, executed := false, passed := false }])

/-- `evaluateChecks` (src/index.ts): run every strategy against the
transaction and aggregate; if no strategy executed, overall is forced to
false. -/
def evaluateChecks (tx : HeartlandTransaction)
    (strategies : List TransactionCompletionStrategy) : EvaluateChecksResult :=
  let r := evaluateChecksLoop tx strategies true false []
  { check := if r.2.1 then r.1 else false, checks := r.2.2 }

namespace TypeAndStatusCompletionStrategy

/-- Strategy name. -/
def name : String := "type-and-status"

/-- supports of TypeAndStatusCompletionStrategy: every transaction. -/
def supports (_tx : HeartlandTransaction) : Bool := true

/-- checkTx of TypeAndStatusCompletionStrategy: if `completed?` is a boolean,
return whether it is true; else if `status` is a string, compare it
lower-cased against "complete"; else false. -/
def checkTx (tx : HeartlandTransaction) : Bool :=
  match tx.completed? with
  | JValue.bool b => b == true
  | _ =>
    match tx.status with
    | JValue.str s => jsToLowerCase s == "complete"
    | _ => false

end TypeAndStatusCompletionStrategy

namespace CompletedTimestampStrategy

/-- Strategy name. -/
def name : String := "completed-timestamp"

/-- supports of CompletedTimestampStrategy: either timestamp field is a
string. -/
def supports (tx : HeartlandTransaction) : Bool :=
  tx.completed_at.isStr || tx.local_completed_at.isStr

/-- checkTx of CompletedTimestampStrategy: Boolean(completed_at ||
local_completed_at). -/
def checkTx (tx : HeartlandTransaction) : Bool :=
  (JValue.jsOr tx.completed_at tx.local_completed_at).truthy

end CompletedTimestampStrategy

/-- The GroupMe messaging client (src/clients.ts): sendMessage fails on a
non-2xx HTTP status, modelled as `Except.error ()`. -/
structure GroupMeClient where
  sendMessage : String → Except Unit Unit

/-- One entry of a ticket line's `price_adjustments` array; the strategies
only ever read its `delta_price` field. -/
structure PriceAdjustment where
  delta_price : JValue := .undef
deriving DecidableEq

/-- A ticket line (src/clients.ts `TicketLine`), with the extra dynamically
typed fields the price-adjusted strategy reads off the open index signature.
`price_adjustments = some l` models an array value (the only inspection the
code performs on it is `Array.isArray` and `.length`); any non-array value is
`none`. -/
structure TicketLine where
  id : ℚ := 0
  type : String := ""
  item_id : JValue := .undef
  item_description : JValue := .undef
  description : JValue := .undef
  adjusted_unit_price : JValue := .undef
  original_unit_price : JValue := .undef
  price_adjustments : Option (List PriceAdjustment) := none
deriving DecidableEq

/-- Paginated ticket-lines response.  The TypeScript type declares `results`
as required, but every consumer guards it with `?? []`, so a possibly-missing
field is modelled as `Option`. -/
structure TicketLinesResponse where
  total : ℚ := 0
  pages : ℚ := 0
  results : Option (List TicketLine) := none
deriving DecidableEq

/-- An inventory value row (src/clients.ts `InventoryValueRow`).  The
TypeScript interface declares `item_id : number`, but the strategy re-checks
every quantity field with `typeof`, so all fields stay dynamically typed. -/
structure InventoryValueRow where
  item_id : JValue := .undef
  location_id : JValue := .undef
  qty_on_hand : JValue := .undef
  qty_available : JValue := .undef
deriving DecidableEq

/-- Paginated inventory-values response (`results` guarded by `?? []`). -/
structure InventoryValuesResponse where
  total : ℚ := 0
  pages : ℚ := 0
  results : Option (List InventoryValueRow) := none
deriving DecidableEq

/-- The Heartland API client interface (src/clients.ts), restricted to the
two methods the strategies call.  Both are network calls that may fail; the
arguments are the dynamically typed values the call sites pass. -/
structure HeartlandApiClient where
  getTicketLines : JValue → Except Unit TicketLinesResponse
  getInventoryValues : JValue → Except Unit InventoryValuesResponse

namespace HighDiscountTicketStrategy

/-- Strategy name. -/
def name : String := "high-discount-ticket"

/-- HEARTLAND_TICKET_URL_BASE of high-discount-ticket-strategy.ts. -/
def HEARTLAND_TICKET_URL_BASE : String :=
  "https://bamherndon.retail.heartland.us/#sales/tickets/edit"

/-- supports of HighDiscountTicketStrategy: numeric id and type Ticket. -/
def supports (tx : HeartlandTransaction) : Bool :=
  if !tx.id.isNum then false
  else if tx.type ≠ JValue.str "Ticket" then false
  else true

/-- toFixed(2) display of a rational (display only). -/
def toFixed2 (q : ℚ) : String :=
  let n : ℤ := round (q * 100)
  let a := n.natAbs
  let sign := if n < 0 then "-" else ""
  let fracStr := if a % 100 < 10 then "0" ++ toString (a % 100) else toString (a % 100)
  sign ++ toString (a / 100) ++ "." ++ fracStr

/-- The alert text sent when a high discount is detected. -/
def highDiscountMessage (ticketId : JValue) (originalSubtotal discountPercent : ℚ) : String :=
  "Ticket " ++ ticketId.render ++ " (  " ++ HEARTLAND_TICKET_URL_BASE ++ "/" ++
    ticketId.render ++ "  )  -  " ++ toString originalSubtotal ++
    " was discounted by " ++ toFixed2 discountPercent ++ "%"

/-- checkTx of HighDiscountTicketStrategy: pass when discount data is missing,
non-numeric, or the subtotal is not positive; otherwise fail iff the discount
percentage exceeds 5, best-effort-notifying (a send error is caught and
ignored). -/
def checkTx (gm : Option GroupMeClient) (tx : HeartlandTransaction) : Bool :=
  let ticketId := tx.id
  let totalDiscounts := tx.total_discounts.asNum
  let originalSubtotal := tx.original_subtotal.asNum
  match totalDiscounts, originalSubtotal with
  | some td, some os =>
    if os ≤ 0 then true
    else
      let discountPercent := td / os * 100
      let thresholdPercent : ℚ := 5
      if discountPercent > thresholdPercent then
        let _alert : Unit :=
          match gm with
          | none => ()
          | some client =>
            match client.sendMessage (highDiscountMessage ticketId os discountPercent) with
            | Except.ok _ => ()
            | Except.error _ => ()
        false
      else true
  | _, _ => true

end HighDiscountTicketStrategy

/-- Array.from(new Set(xs)): deduplication keeping first-occurrence order,
written with an explicit accumulator of already-seen values. -/
def dedupFirstAux : List JValue → List JValue → List JValue
  | [], _ => []
  | x :: xs, seen =>
    if x ∈ seen then dedupFirstAux xs seen
    else x :: dedupFirstAux xs (seen ++ [x])

/-- Array.from(new Set(xs)). -/
def dedupFirst (l : List JValue) : List JValue := dedupFirstAux l []

/-- Map.get on an insertion-ordered association list. -/
def assocFind : List (JValue × JValue) → JValue → Option JValue
  | [], _ => none
  | (k, v) :: rest, key => if k = key then some v else assocFind rest key

namespace InventoryNonNegativeStrategy

/-- Strategy name. -/
def name : String := "inventory-non-negative"

/-- EXCLUDED_ITEM_IDS of inventory-non-negative-strategy.ts. -/
def EXCLUDED_ITEM_IDS : List ℚ := [101996, 106379, 102112]

/-- EXCLUDED_ITEM_IDS.has(v) at a call site where v already passed a
`typeof v === 'number'` guard. -/
def isExcludedItemId (v : JValue) : Bool :=
  match v with
  | JValue.num q => decide (q ∈ EXCLUDED_ITEM_IDS)
  | _ => false

/-- supports of InventoryNonNegativeStrategy: numeric id, numeric
source_location_id, type Ticket or Return. -/
def supports (tx : HeartlandTransaction) : Bool :=
  if !tx.id.isNum then false
  else if !tx.source_location_id.isNum then false
  else if tx.type ≠ JValue.str "Ticket" ∧ tx.type ≠ JValue.str "Return" then false
  else true

/-- The ticket-line filter of checkTx: ItemLine rows with a numeric,
non-excluded item_id. -/
def isCheckedItemLine (line : TicketLine) : Bool :=
  line.type == "ItemLine" && line.item_id.isNum && !isExcludedItemId line.item_id

/-- line.item_description ?? line.description ?? ''. -/
def descFor (line : TicketLine) : JValue :=
  JValue.coalesce line.item_description (JValue.coalesce line.description (JValue.str ""))

/-- The construction of `itemDescriptionById`: walk the lines in order; for a
checked ItemLine whose description is truthy and whose item is not yet mapped,
record the description. -/
def buildDescMap : List TicketLine → List (JValue × JValue) → List (JValue × JValue)
  | [], acc => acc
  | line :: rest, acc =>
    if line.type == "ItemLine" && line.item_id.isNum then
      if isExcludedItemId line.item_id then buildDescMap rest acc
      else
        let desc := descFor line
        if desc.truthy && (assocFind acc line.item_id).isNone then
          buildDescMap rest (acc ++ [(line.item_id, desc)])
        else buildDescMap rest acc
    else buildDescMap rest acc

/-- The distinct non-excluded merchandise item ids of a lines response. -/
def itemIdsOf (linesResponse : TicketLinesResponse) : List JValue :=
  dedupFirst (((linesResponse.results.getD []).filter isCheckedItemLine).map
    (fun line => line.item_id))

/-- A row is skipped exactly when it carries a numeric location_id different
from the ticket's location; every other row is checked. -/
def rowRelevant (locationId : JValue) (row : InventoryValueRow) : Bool :=
  !(row.location_id.isNum && row.location_id != locationId)

/-- qtyForCheck of checkTx: qty_available if numeric, else qty_on_hand if
numeric, else 0. -/
def qtyForCheck (row : InventoryValueRow) : ℚ :=
  match row.qty_available.asNum with
  | some q => q
  | none =>
    match row.qty_on_hand.asNum with
    | some q => q
    | none => 0

/-- An entry of the `negatives` array built by checkTx. -/
structure NegativeInventoryEntry where
  item_id : JValue
  location_id : JValue
  qty_on_hand : Option ℚ
  qty_available : Option ℚ
  description : JValue
deriving DecidableEq

/-- The inner row loop of checkTx for one inventory response: keep the rows
relevant to the ticket's location whose effective quantity is negative. -/
def negativeEntriesOfRows (locationId : JValue) (descMap : List (JValue × JValue)) :
    List InventoryValueRow → List NegativeInventoryEntry
  | [] => []
  | row :: rest =>
    if rowRelevant locationId row && decide (qtyForCheck row < 0) then
      { item_id := row.item_id
        location_id := row.location_id
        qty_on_hand := row.qty_on_hand.asNum
        qty_available := row.qty_available.asNum
        description := (assocFind descMap row.item_id).getD
          (JValue.str ("Item " ++ row.item_id.render)) } ::
        negativeEntriesOfRows locationId descMap rest
    else negativeEntriesOfRows locationId descMap rest

/-- The per-item fetch loop of checkTx: fetch inventory values for each item;
a fetch error aborts the whole check (the caller then fails it); otherwise
accumulate the negative rows. -/
def collectNegatives (api : HeartlandApiClient) (locationId : JValue)
    (descMap : List (JValue × JValue)) :
    List JValue → List NegativeInventoryEntry → Except Unit (List NegativeInventoryEntry)
  | [], acc => Except.ok acc
  | itemId :: rest, acc =>
    match api.getInventoryValues itemId with
    | Except.error _ => Except.error ()
    | Except.ok invResponse =>
      collectNegatives api locationId descMap rest
        (acc ++ negativeEntriesOfRows locationId descMap (invResponse.results.getD []))

/-- baseUrl.replace of trailing slashes. -/
def stripTrailingSlashes (s : String) : String :=
  s.dropRightWhile (fun c => c = '/')

/-- The alert text sent for one negative-inventory entry. -/
def negativeInventoryMessage (base : String) (neg : NegativeInventoryEntry) : String :=
  neg.description.render ++ " (" ++ base ++ "/#items/edit/" ++ neg.item_id.render ++
    ") has negative inventory balance"

/-- checkTx of InventoryNonNegativeStrategy: fetch the ticket's lines (a fetch
error fails the check); collect the distinct non-excluded merchandise item
ids (none ⇒ pass); fetch each item's inventory values (a fetch error fails
the check) and collect the relevant rows with negative effective quantity;
if any exist, best-effort-notify (send errors swallowed) and fail, else
pass. -/
def checkTx (api : HeartlandApiClient) (heartlandBaseUrl : String)
    (gm : Option GroupMeClient) (tx : HeartlandTransaction) : Bool :=
  let ticketId := tx.id
  let locationId := tx.source_location_id
  match api.getTicketLines ticketId with
  | Except.error _ => false
  | Except.ok linesResponse =>
    let itemDescriptionById := buildDescMap (linesResponse.results.getD []) []
    let itemIds := itemIdsOf linesResponse
    if itemIds.isEmpty then true
    else
      match collectNegatives api locationId itemDescriptionById itemIds [] with
      | Except.error _ => false
      | Except.ok negatives =>
        if negatives.isEmpty then true
        else
          let _alerts : Unit :=
            match gm with
            | none => ()
            | some client =>
              let base := stripTrailingSlashes heartlandBaseUrl
              let _ := negatives.map
                (fun neg => client.sendMessage (negativeInventoryMessage base neg))
              ()
          false

end InventoryNonNegativeStrategy

namespace PriceAdjustedItemStrategy

/-- Strategy name. -/
def name : String := "price-adjusted-item"

/-- HEARTLAND_TICKET_URL_BASE of price-adjusted-item-strategy.ts. -/
def HEARTLAND_TICKET_URL_BASE : String :=
  "https://bamherndon.retail.heartland.us/#sales/tickets/edit"

/-- supports of PriceAdjustedItemStrategy: numeric id and type Ticket. -/
def supports (tx : HeartlandTransaction) : Bool :=
  if !tx.id.isNum then false
  else if tx.type ≠ JValue.str "Ticket" then false
  else true

/-- The object built per adjusted line inside checkTx. -/
structure AdjustedItem where
  line_id : ℚ
  item_id : JValue
  description : JValue
  original_unit_price : JValue
  adjusted_unit_price : JValue
  price_adjustments : Option (List PriceAdjustment)
deriving DecidableEq

/-- The map step of checkTx over merchandise lines: detect an adjusted line
(non-nullish adjusted_unit_price, or a non-empty price_adjustments array) and
project its report fields; an unadjusted line maps to none. -/
def toAdjustedItem (line : TicketLine) : Option AdjustedItem :=
  let adjustedUnitPrice := line.adjusted_unit_price
  let originalUnitPrice := line.original_unit_price
  let priceAdjustments := line.price_adjustments
  let hasAdjustedUnitPrice : Bool :=
    adjustedUnitPrice != JValue.null && adjustedUnitPrice != JValue.undef
  let hasAdjustments : Bool :=
    match priceAdjustments with
    | some adjs => decide (0 < adjs.length)
    | none => false
  if !hasAdjustedUnitPrice && !hasAdjustments then none
  else
    let description :=
      JValue.coalesce line.item_description
        (JValue.coalesce line.description
          (if line.item_id.isNum then JValue.str ("Item " ++ line.item_id.render)
           else JValue.str ("Line " ++ toString line.id)))
    some
      { line_id := line.id
        item_id := line.item_id
        description := description
        original_unit_price := originalUnitPrice
        adjusted_unit_price := adjustedUnitPrice
        price_adjustments := if hasAdjustments then priceAdjustments else none }

/-- getDeltaPrice of price-adjusted-item-strategy.ts: the sum of the numeric
delta_price entries when the array has at least one; else adjusted minus
original when both are numeric; else unknown (none). -/
def getDeltaPrice (item : AdjustedItem) : Option ℚ :=
  let deltas : List ℚ :=
    match item.price_adjustments with
    | some adjs => adjs.filterMap (fun entry => entry.delta_price.asNum)
    | none => []
  if 0 < deltas.length then
    some (deltas.foldl (fun sum value => sum + value) 0)
  else
    match item.original_unit_price.asNum, item.adjusted_unit_price.asNum with
    | some original, some adjusted => some (adjusted - original)
    | _, _ => none

/-- formatPrice of price-adjusted-item-strategy.ts (display only). -/
def formatPrice (value : JValue) : String :=
  match value with
  | JValue.num q => toString q
  | _ => "unknown"

/-- The Option ℚ delta as the JValue handed to formatPrice. -/
def optNumToJValue : Option ℚ → JValue
  | some q => JValue.num q
  | none => JValue.undef

/-- The alert text sent for one adjusted line. -/
def adjustedItemMessage (ticketUrl : String) (ticketId : JValue) (item : AdjustedItem) : String :=
  "Item " ++ item.description.render ++ " price was adjusted by " ++
    formatPrice (optNumToJValue (getDeltaPrice item)) ++ " from " ++
    formatPrice item.original_unit_price ++ " to " ++
    formatPrice item.adjusted_unit_price ++ " in ticket " ++ ticketId.render ++
    " ( " ++ ticketUrl ++ " )"

/-- checkTx of PriceAdjustedItemStrategy: fetch the ticket's lines (a fetch
error fails the check); keep ItemLine rows (none ⇒ pass); map them to
adjusted items; if any exist, best-effort-notify (send errors swallowed) and
fail, else pass. -/
def checkTx (api : HeartlandApiClient) (gm : Option GroupMeClient)
    (tx : HeartlandTransaction) : Bool :=
  let ticketId := tx.id
  match api.getTicketLines ticketId with
  | Except.error _ => false
  | Except.ok linesResponse =>
    let itemLines := (linesResponse.results.getD []).filter
      (fun line => line.type == "ItemLine")
    if itemLines.isEmpty then true
    else
      let adjustedItems := itemLines.filterMap toAdjustedItem
      if 0 < adjustedItems.length then
        let _alerts : Unit :=
          match gm with
          | none => ()
          | some client =>
            let ticketUrl := HEARTLAND_TICKET_URL_BASE ++ "/" ++ ticketId.render
            let _ := adjustedItems.map
              (fun item => client.sendMessage (adjustedItemMessage ticketUrl ticketId item))
            ()
        false
      else true

end PriceAdjustedItemStrategy

/-- The summary `evaluateChecks` records for one strategy: not executed when
unsupported; executed with the checkTx verdict, a thrown error counting as
failed, otherwise. -/
def evalStep (tx : HeartlandTransaction) (strategy : TransactionCompletionStrategy) :
    CheckSummary :=
  if strategy.supports tx then
    match strategy.checkTx tx with
    | Except.ok passed => { name := strategy.name, executed := true, passed := passed }
    | Except.error _ => { name := strategy.name, executed := true, passed := false }
  else { name := strategy.name, executed := false, passed := false }

lemma evaluateChecksLoop_spec (tx : HeartlandTransaction)
    (ss : List TransactionCompletionStrategy) :
    ∀ (ov anyE : Bool) (acc : List CheckSummary),
    evaluateChecksLoop tx ss ov anyE acc =
      (ov && ((ss.map (evalStep tx)).filter (fun c => c.executed)).all (fun c => c.passed),
       anyE || (ss.map (evalStep tx)).any (fun c => c.executed),
       acc ++ ss.map (evalStep tx)) := by
  induction ss with
  | nil => intro ov anyE acc; simp [evaluateChecksLoop]
  | cons s rest ih =>
    intro ov anyE acc
    by_cases hs : s.supports tx = true
    · cases hc : s.checkTx tx with
      | ok b =>
        simp only [evaluateChecksLoop, hs, if_true, hc, ih, List.map_cons, evalStep,
          List.filter_cons, List.any_cons, List.all_cons]
        simp [Bool.and_assoc]
      | error e =>
        simp only [evaluateChecksLoop, hs, if_true, hc, ih, List.map_cons, evalStep,
          List.filter_cons, List.any_cons, List.all_cons]
        simp [Bool.and_assoc]
    · simp only [evaluateChecksLoop, hs, if_false, ih, List.map_cons, evalStep,
        List.filter_cons, List.any_cons, List.all_cons]
      simp [hs]

lemma evaluateChecks_checks (tx : HeartlandTransaction)
    (ss : List TransactionCompletionStrategy) :
    (evaluateChecks tx ss).checks = ss.map (evalStep tx) := by
  simp [evaluateChecks, evaluateChecksLoop_spec]

lemma evaluateChecks_check (tx : HeartlandTransaction)
    (ss : List TransactionCompletionStrategy) :
    (evaluateChecks tx ss).check =
      ((ss.map (evalStep tx)).any (fun c => c.executed) &&
        ((ss.map (evalStep tx)).filter (fun c => c.executed)).all (fun c => c.passed)) := by
  simp only [evaluateChecks, evaluateChecksLoop_spec]
  cases hA : (ss.map (evalStep tx)).any (fun c => c.executed) <;> simp [hA]

/-- C1: for every transaction and strategy list, the orchestrator's overall
verdict equals the AND of the `passed` flags of exactly the results with
`executed = true`, and is false whenever no result executed — in particular
for the empty strategy list. -/
theorem evaluateChecks_overall_verdict (tx : HeartlandTransaction)
    (ss : List TransactionCompletionStrategy) :
    ((evaluateChecks tx ss).check =
      ((((evaluateChecks tx ss).checks.filter (fun c => c.executed)).all
          (fun c => c.passed)) &&
        ((evaluateChecks tx ss).checks.any (fun c => c.executed)))) ∧
    (evaluateChecks tx []).check = false := by
  refine ⟨?_, by simp [evaluateChecks, evaluateChecksLoop]⟩
  rw [evaluateChecks_check, evaluateChecks_checks, Bool.and_comm]

/-- C10: the orchestrator's `checks` list has exactly one entry per input
strategy, in input order, each carrying that strategy's name; and an entry
with `executed = false` also has `passed = false`. -/
theorem evaluateChecks_reports_every_strategy (tx : HeartlandTransaction)
    (ss : List TransactionCompletionStrategy) :
    ((evaluateChecks tx ss).checks.map (fun c => c.name) = ss.map (fun s => s.name)) ∧
    ((evaluateChecks tx ss).checks.all (fun c => c.executed || !c.passed) = true) := by
  rw [evaluateChecks_checks]
  constructor
  · rw [List.map_map]
    refine List.map_congr_left (fun s _ => ?_)
    simp only [Function.comp_apply, evalStep]
    by_cases hs : s.supports tx = true
    · cases hc : s.checkTx tx <;> simp [hs, hc]
    · simp [hs]
  · rw [List.all_eq_true]
    intro c hc
    rcases List.mem_map.mp hc with ⟨s, _, rfl⟩
    simp only [evalStep]
    by_cases hs : s.supports tx = true
    · cases hck : s.checkTx tx <;> simp [hs, hck]
    · simp [hs]

/-- C2: when a supported strategy's checkTx throws, the orchestrator records
`{executed := true, passed := false}` for it at its position, keeps going,
and still returns a complete report (one entry per strategy) — the error does
not propagate. -/
theorem evaluateChecks_isolates_strategy_errors
    (tx : HeartlandTransaction) (ss : List TransactionCompletionStrategy)
    (i : ℕ) (s : TransactionCompletionStrategy)
    (hgs : ss[i]? = some s) (hsup : s.supports tx = true)
    (herr : s.checkTx tx = Except.error ()) :
    (evaluateChecks tx ss).checks.length = ss.length ∧
    (evaluateChecks tx ss).checks[i]? =
      some { name := s.name, executed := true, passed := false } := by
  constructor
  · rw [evaluateChecks_checks, List.length_map]
  · rw [evaluateChecks_checks, List.getElem?_map, hgs]
    simp [evalStep, hsup, herr]

/-- An all-default transaction used by concrete check scenarios. -/
def emptyTx : HeartlandTransaction := {}

/-- A strategy that supports everything and always throws. -/
def throwingStrategy : TransactionCompletionStrategy :=
  { name := "throwing", supports := fun _ => true, checkTx := fun _ => Except.error () }

theorem evaluateChecks_isolates_strategy_errors_witness :
    (evaluateChecks emptyTx [throwingStrategy]).checks.length = [throwingStrategy].length ∧
    (evaluateChecks emptyTx [throwingStrategy]).checks[0]? =
      some { name := throwingStrategy.name, executed := true, passed := false } :=
  evaluateChecks_isolates_strategy_errors emptyTx [throwingStrategy] 0 throwingStrategy
    rfl rfl rfl

lemma JValue.asNum_eq_none (v : JValue) (h : v.isNum = false) : v.asNum = none := by
  cases v <;> simp_all [JValue.isNum, JValue.asNum]

/-- A Ticket discounted by exactly five percent. -/
def txFivePercent : HeartlandTransaction :=
  { id := JValue.num 1, type := JValue.str "Ticket",
    original_subtotal := JValue.num 200, total_discounts := JValue.num 10 }

/-- A Ticket discounted by ten percent. -/
def txTenPercent : HeartlandTransaction :=
  { id := JValue.num 2, type := JValue.str "Ticket",
    original_subtotal := JValue.num 200, total_discounts := JValue.num 20 }

/-- C5: on a supported Ticket with numeric discount data and a positive
subtotal, the high-discount check fails exactly when the discount percentage
exceeds 5; exactly 5% (10 of 200) passes and 10% (20 of 200) fails; missing,
non-numeric or non-positive subtotal data passes. -/
theorem HighDiscountTicketStrategy.checkTx_spec :
    (∀ (tx : HeartlandTransaction) (gm : Option GroupMeClient) (td os : ℚ),
      HighDiscountTicketStrategy.supports tx = true →
      tx.total_discounts = JValue.num td → tx.original_subtotal = JValue.num os →
      0 < os →
      (HighDiscountTicketStrategy.checkTx gm tx = false ↔ td / os * 100 > 5)) ∧
    (∀ (tx : HeartlandTransaction) (gm : Option GroupMeClient),
      (tx.total_discounts.isNum = false ∨ tx.original_subtotal.isNum = false ∨
        (∃ os, tx.original_subtotal = JValue.num os ∧ os ≤ 0)) →
      HighDiscountTicketStrategy.checkTx gm tx = true) ∧
    HighDiscountTicketStrategy.checkTx none txFivePercent = true ∧
    HighDiscountTicketStrategy.checkTx none txTenPercent = false := by
  have hfive : ¬ ((10 : ℚ) / 200 * 100 > 5) := by norm_num
  have hten : (20 : ℚ) / 200 * 100 > 5 := by norm_num
  refine ⟨?_, ?_, ?_, ?_⟩
  · intro tx gm td os _ htd hos hpos
    have hnle : ¬ os ≤ 0 := not_le.mpr hpos
    simp only [HighDiscountTicketStrategy.checkTx, htd, hos, JValue.asNum]
    by_cases h5 : td / os * 100 > 5
    · simp [hnle, h5]
    · simp [hnle, h5]
  · intro tx gm h
    rcases h with h | h | ⟨os, hos, hle⟩
    · cases htd : tx.total_discounts <;> cases hos2 : tx.original_subtotal <;>
        simp_all [HighDiscountTicketStrategy.checkTx, JValue.asNum, JValue.isNum]
    · cases htd : tx.total_discounts <;> cases hos2 : tx.original_subtotal <;>
        simp_all [HighDiscountTicketStrategy.checkTx, JValue.asNum, JValue.isNum]
    · cases htd : tx.total_discounts <;>
        simp_all [HighDiscountTicketStrategy.checkTx, JValue.asNum, hle]
  · simp [HighDiscountTicketStrategy.checkTx, txFivePercent, JValue.asNum, hfive]
  · simp [HighDiscountTicketStrategy.checkTx, txTenPercent, JValue.asNum, hten]

theorem HighDiscountTicketStrategy.checkTx_spec_witness :
    HighDiscountTicketStrategy.checkTx none txTenPercent = false :=
  (HighDiscountTicketStrategy.checkTx_spec.1 txTenPercent none 20 200 (by decide)
    rfl rfl (by norm_num)).mpr (by norm_num)

/-- Modelled from the claim's wording only (not from the source): the field
is present as a non-empty string. -/
def presentAsNonEmptyString (v : JValue) : Bool :=
  match v with
  | JValue.str s => decide (s ≠ "")
  | _ => false

/-- A transaction whose only timestamp datum is the empty string. -/
def txEmptyTimestampOnly : HeartlandTransaction := { completed_at := JValue.str "" }

/-- C6 counterexample: a transaction with `completed_at = ""` is supported by
the completed-timestamp strategy although neither timestamp field is present
as a non-empty string, refuting the claimed `supports` characterization. -/
theorem CompletedTimestampStrategy.supports_counterexample :
    CompletedTimestampStrategy.supports txEmptyTimestampOnly = true ∧
    presentAsNonEmptyString txEmptyTimestampOnly.completed_at = false ∧
    presentAsNonEmptyString txEmptyTimestampOnly.local_completed_at = false := by
  decide

/-- C6 (amended): `supports` is true exactly when either timestamp field is
present as a string — the empty string included — and for every transaction
`checkTx` is true exactly when either field is truthy. -/
theorem CompletedTimestampStrategy.timestamp_amended_spec (tx : HeartlandTransaction) :
    (CompletedTimestampStrategy.supports tx = true ↔
      (tx.completed_at.isStr = true ∨ tx.local_completed_at.isStr = true)) ∧
    (CompletedTimestampStrategy.checkTx tx = true ↔
      (tx.completed_at.truthy = true ∨ tx.local_completed_at.truthy = true)) := by
  constructor
  · simp [CompletedTimestampStrategy.supports]
  · simp only [CompletedTimestampStrategy.checkTx, JValue.jsOr]
    by_cases h : tx.completed_at.truthy = true <;> simp [h]

/-- Modelled from the claim's wording only (not from the source): pass when
the completion flag is true, else pass when the status string lower-cases to
"complete", else fail. -/
def specElseChainPasses (tx : HeartlandTransaction) : Bool :=
  if tx.completed? = JValue.bool true then true
  else
    match tx.status with
    | JValue.str s => jsToLowerCase s == "complete"
    | _ => false

/-- A transaction with an explicit false completion flag but status
"complete". -/
def txFalseFlagCompleteStatus : HeartlandTransaction :=
  { completed? := JValue.bool false, status := JValue.str "complete" }

/-- C7 counterexample: with `completed? = false` and `status = "complete"`,
the code returns false while the claimed else-chain dictates true. -/
theorem TypeAndStatusCompletionStrategy.checkTx_counterexample :
    TypeAndStatusCompletionStrategy.checkTx txFalseFlagCompleteStatus = false ∧
    specElseChainPasses txFalseFlagCompleteStatus = true := by
  decide

/-- C7 (amended): `supports` accepts every transaction; when `completed?` is
a boolean, `checkTx` returns exactly that boolean (the status is never
consulted); otherwise `checkTx` is true exactly when the status is a string
whose lower-casing equals "complete". -/
theorem TypeAndStatusCompletionStrategy.type_status_amended_spec (tx : HeartlandTransaction) :
    TypeAndStatusCompletionStrategy.supports tx = true ∧
    (TypeAndStatusCompletionStrategy.checkTx tx = true ↔
      (tx.completed? = JValue.bool true ∨
        (tx.completed?.isBool = false ∧
          ∃ s, tx.status = JValue.str s ∧ jsToLowerCase s = "complete"))) := by
  refine ⟨rfl, ?_⟩
  cases hc : tx.completed? with
  | bool b =>
    cases b <;> simp [TypeAndStatusCompletionStrategy.checkTx, hc, JValue.isBool]
  | null =>
    cases hs : tx.status <;>
      simp [TypeAndStatusCompletionStrategy.checkTx, hc, hs, JValue.isBool]
  | undef =>
    cases hs : tx.status <;>
      simp [TypeAndStatusCompletionStrategy.checkTx, hc, hs, JValue.isBool]
  | num q =>
    cases hs : tx.status <;>
      simp [TypeAndStatusCompletionStrategy.checkTx, hc, hs, JValue.isBool]
  | str s =>
    cases hs : tx.status <;>
      simp [TypeAndStatusCompletionStrategy.checkTx, hc, hs, JValue.isBool]

/-- The line of the spec's first price-adjusted example: adjusted unit price
15, original unit price 75, no itemized adjustments. -/
def lineAdjusted1575 : TicketLine :=
  { id := 1, type := "ItemLine", adjusted_unit_price := JValue.num 15,
    original_unit_price := JValue.num 75 }

/-- The line of the spec's second price-adjusted example: a single itemized
adjustment with delta -60 and no unit-price fields. -/
def lineOnlyAdjustment : TicketLine :=
  { id := 2, type := "ItemLine",
    price_adjustments := some [{ delta_price := JValue.num (-60) }] }

/-- A concrete adjusted item carrying only the -60 itemized adjustment. -/
def itemOnlyAdjustmentW : PriceAdjustedItemStrategy.AdjustedItem :=
  { line_id := 2, item_id := JValue.undef, description := JValue.str "w",
    original_unit_price := JValue.undef, adjusted_unit_price := JValue.undef,
    price_adjustments := some [{ delta_price := JValue.num (-60) }] }

/-- C8: the reported delta of an adjusted line is the sum of the numeric
delta_price entries of its price_adjustments list when at least one exists;
otherwise adjusted_unit_price minus original_unit_price when both are
numeric; otherwise unknown.  Both spec examples report -60. -/
theorem PriceAdjustedItemStrategy.getDeltaPrice_spec :
    (∀ (item : PriceAdjustedItemStrategy.AdjustedItem) (adjs : List PriceAdjustment),
      item.price_adjustments = some adjs →
      (adjs.filterMap (fun entry => entry.delta_price.asNum)) ≠ [] →
      PriceAdjustedItemStrategy.getDeltaPrice item =
        some (adjs.filterMap (fun entry => entry.delta_price.asNum)).sum) ∧
    (∀ (item : PriceAdjustedItemStrategy.AdjustedItem) (o a : ℚ),
      ((item.price_adjustments.getD []).filterMap
        (fun entry => entry.delta_price.asNum)) = [] →
      item.original_unit_price = JValue.num o → item.adjusted_unit_price = JValue.num a →
      PriceAdjustedItemStrategy.getDeltaPrice item = some (a - o)) ∧
    (∀ (item : PriceAdjustedItemStrategy.AdjustedItem),
      ((item.price_adjustments.getD []).filterMap
        (fun entry => entry.delta_price.asNum)) = [] →
      (item.original_unit_price.isNum = false ∨ item.adjusted_unit_price.isNum = false) →
      PriceAdjustedItemStrategy.getDeltaPrice item = none) ∧
    (PriceAdjustedItemStrategy.toAdjustedItem lineAdjusted1575).map
      PriceAdjustedItemStrategy.getDeltaPrice = some (some (-60)) ∧
    (PriceAdjustedItemStrategy.toAdjustedItem lineOnlyAdjustment).map
      PriceAdjustedItemStrategy.getDeltaPrice = some (some (-60)) := by
  refine ⟨?_, ?_, ?_, ?_, ?_⟩
  · intro item adjs hpa hne
    have hlen : 0 < (adjs.filterMap (fun entry => entry.delta_price.asNum)).length :=
      List.length_pos.mpr hne
    simp only [PriceAdjustedItemStrategy.getDeltaPrice, hpa, if_pos hlen]
    rw [List.sum_eq_foldl]
  · intro item o a hpa ho ha
    cases hadj : item.price_adjustments with
    | none =>
      simp [PriceAdjustedItemStrategy.getDeltaPrice, hadj, ho, ha, JValue.asNum]
    | some adjs =>
      rw [hadj] at hpa
      simp only [Option.getD_some] at hpa
      simp only [PriceAdjustedItemStrategy.getDeltaPrice, hadj, hpa]
      rw [ho, ha]
      simp [JValue.asNum]
  · intro item hpa h
    have key : ∀ dl : List ℚ, dl = [] →
        (if 0 < dl.length then
          some (dl.foldl (fun sum value => sum + value) 0)
        else
          match item.original_unit_price.asNum, item.adjusted_unit_price.asNum with
          | some original, some adjusted => some (adjusted - original)
          | _, _ => none) = none := by
      intro dl hdl
      subst hdl
      rcases h with h | h
      · rw [JValue.asNum_eq_none _ h]
        cases item.adjusted_unit_price.asNum <;> rfl
      · rw [JValue.asNum_eq_none _ h]
        cases item.original_unit_price.asNum <;> rfl
    cases hadj : item.price_adjustments with
    | none => simpa only [PriceAdjustedItemStrategy.getDeltaPrice, hadj] using key [] rfl
    | some adjs =>
      rw [hadj] at hpa
      simp only [Option.getD_some] at hpa
      simpa only [PriceAdjustedItemStrategy.getDeltaPrice, hadj] using
        key (adjs.filterMap (fun entry => entry.delta_price.asNum)) hpa
  · have hsub : (15 : ℚ) - 75 = -60 := by norm_num
    simp [PriceAdjustedItemStrategy.toAdjustedItem, lineAdjusted1575,
      PriceAdjustedItemStrategy.getDeltaPrice, JValue.asNum, hsub]
  · have hsum : ([(-60 : ℚ)]).foldl (fun sum value => sum + value) 0 = -60 := by
      norm_num
    simp [PriceAdjustedItemStrategy.toAdjustedItem, lineOnlyAdjustment,
      PriceAdjustedItemStrategy.getDeltaPrice, JValue.asNum, hsum]

theorem PriceAdjustedItemStrategy.getDeltaPrice_spec_witness :
    PriceAdjustedItemStrategy.getDeltaPrice itemOnlyAdjustmentW = some (-60) := by
  have h := PriceAdjustedItemStrategy.getDeltaPrice_spec.1 itemOnlyAdjustmentW
    [{ delta_price := JValue.num (-60) }] rfl (by simp [JValue.asNum])
  simpa [JValue.asNum] using h

lemma mem_dedupFirstAux (x : JValue) :
    ∀ (l seen : List JValue), x ∈ dedupFirstAux l seen ↔ (x ∈ l ∧ x ∉ seen) := by
  intro l
  induction l with
  | nil => intro seen; simp [dedupFirstAux]
  | cons y ys ih =>
    intro seen
    by_cases hy : y ∈ seen
    · rw [dedupFirstAux, if_pos hy, ih]
      constructor
      · rintro ⟨hx, hns⟩
        exact ⟨List.mem_cons_of_mem _ hx, hns⟩
      · rintro ⟨hx, hns⟩
        rcases List.mem_cons.mp hx with rfl | hx
        · exact absurd hy hns
        · exact ⟨hx, hns⟩
    · rw [dedupFirstAux, if_neg hy, List.mem_cons, ih]
      simp only [List.mem_append, List.mem_singleton]
      constructor
      · rintro (rfl | ⟨hx, hns⟩)
        · exact ⟨List.mem_cons_self x ys, hy⟩
        · exact ⟨List.mem_cons_of_mem _ hx, fun hmem => hns (Or.inl hmem)⟩
      · rintro ⟨hx, hns⟩
        rcases List.mem_cons.mp hx with rfl | hx
        · exact Or.inl rfl
        · by_cases hxy : x = y
          · exact Or.inl hxy
          · refine Or.inr ⟨hx, ?_⟩
            rintro (hmem | hmem)
            · exact hns hmem
            · exact hxy hmem

lemma mem_dedupFirst (x : JValue) (l : List JValue) :
    x ∈ dedupFirst l ↔ x ∈ l := by
  rw [dedupFirst, mem_dedupFirstAux]
  simp

namespace InventoryNonNegativeStrategy

/-- The `results ?? []` rows behind a successful inventory fetch (empty when
the fetch failed; only consulted under a fetch-success hypothesis). -/
def invRows (api : HeartlandApiClient) (itemId : JValue) : List InventoryValueRow :=
  match api.getInventoryValues itemId with
  | Except.ok r => r.results.getD []
  | Except.error _ => []

lemma isCheckedItemLine_iff (line : TicketLine) :
    isCheckedItemLine line = true ↔
      (line.type = "ItemLine" ∧ line.item_id.isNum = true ∧
        isExcludedItemId line.item_id = false) := by
  simp [isCheckedItemLine, Bool.and_assoc, and_assoc]

lemma mem_itemIdsOf (v : JValue) (lr : TicketLinesResponse) :
    v ∈ itemIdsOf lr ↔
      ∃ line ∈ lr.results.getD [], isCheckedItemLine line = true ∧ line.item_id = v := by
  rw [itemIdsOf, mem_dedupFirst]
  simp only [List.mem_map, List.mem_filter]
  constructor
  · rintro ⟨line, ⟨hmem, hchk⟩, rfl⟩
    exact ⟨line, hmem, hchk, rfl⟩
  · rintro ⟨line, hmem, hchk, rfl⟩
    exact ⟨line, ⟨hmem, hchk⟩, rfl⟩

lemma rowRelevant_iff (loc : JValue) (row : InventoryValueRow) :
    rowRelevant loc row = true ↔
      (row.location_id = loc ∨ row.location_id.isNum = false) := by
  by_cases hnum : row.location_id.isNum = true
  · by_cases heq : row.location_id = loc
    · simp [rowRelevant, hnum, heq]
    · simp [rowRelevant, hnum, heq, bne_iff_ne]
  · simp only [Bool.not_eq_true] at hnum
    simp [rowRelevant, hnum]

lemma negativeEntriesOfRows_ne_nil_iff (loc : JValue) (dm : List (JValue × JValue))
    (rows : List InventoryValueRow) :
    negativeEntriesOfRows loc dm rows ≠ [] ↔
      ∃ row ∈ rows, rowRelevant loc row = true ∧ qtyForCheck row < 0 := by
  induction rows with
  | nil => simp [negativeEntriesOfRows]
  | cons row rest ih =>
    by_cases hc : (rowRelevant loc row && decide (qtyForCheck row < 0)) = true
    · have hc2 : rowRelevant loc row = true ∧ qtyForCheck row < 0 := by
        simpa using hc
      rw [negativeEntriesOfRows, if_pos hc]
      constructor
      · intro _
        exact ⟨row, List.mem_cons_self row rest, hc2.1, hc2.2⟩
      · intro _
        exact List.cons_ne_nil _ _
    · have hc2 : ¬(rowRelevant loc row = true ∧ qtyForCheck row < 0) := by
        simpa using hc
      rw [negativeEntriesOfRows, if_neg hc, ih]
      constructor
      · rintro ⟨r, hr, hrel, hq⟩
        exact ⟨r, List.mem_cons_of_mem _ hr, hrel, hq⟩
      · rintro ⟨r, hr, hrel, hq⟩
        rcases List.mem_cons.mp hr with rfl | hr
        · exact absurd ⟨hrel, hq⟩ hc2
        · exact ⟨r, hr, hrel, hq⟩

lemma collectNegatives_ok (api : HeartlandApiClient) (loc : JValue)
    (dm : List (JValue × JValue)) :
    ∀ (ids : List JValue) (acc : List NegativeInventoryEntry),
    (∀ i ∈ ids, (api.getInventoryValues i).isOk = true) →
    collectNegatives api loc dm ids acc =
      Except.ok (acc ++ ids.flatMap (fun i => negativeEntriesOfRows loc dm (invRows api i))) := by
  intro ids
  induction ids with
  | nil => intro acc _; simp [collectNegatives]
  | cons i rest ih =>
    intro acc h
    have hi := h i (List.mem_cons_self i rest)
    cases hinv : api.getInventoryValues i with
    | error e => rw [hinv] at hi; simp [Except.isOk, Except.toBool] at hi
    | ok r =>
      have hrest : ∀ j ∈ rest, (api.getInventoryValues j).isOk = true :=
        fun j hj => h j (List.mem_cons_of_mem _ hj)
      have step : collectNegatives api loc dm (i :: rest) acc =
          collectNegatives api loc dm rest
            (acc ++ negativeEntriesOfRows loc dm (r.results.getD [])) := by
        rw [collectNegatives, hinv]
      have hrow : invRows api i = r.results.getD [] := by rw [invRows, hinv]
      rw [step, ih _ hrest, List.flatMap_cons, hrow, List.append_assoc]

lemma collectNegatives_error (api : HeartlandApiClient) (loc : JValue)
    (dm : List (JValue × JValue)) :
    ∀ (ids : List JValue) (acc : List NegativeInventoryEntry),
    (∃ i ∈ ids, api.getInventoryValues i = Except.error ()) →
    collectNegatives api loc dm ids acc = Except.error () := by
  intro ids
  induction ids with
  | nil => rintro acc ⟨i, hi, _⟩; simp at hi
  | cons i rest ih =>
    rintro acc ⟨j, hj, herr⟩
    cases hinv : api.getInventoryValues i with
    | error e => rw [collectNegatives, hinv]
    | ok r =>
      rw [collectNegatives, hinv]
      refine ih _ ⟨j, ?_, herr⟩
      rcases List.mem_cons.mp hj with rfl | hj
      · rw [hinv] at herr; cases herr
      · exact hj

lemma exists_violation_iff (api : HeartlandApiClient) (loc : JValue)
    (dm : List (JValue × JValue)) (lr : TicketLinesResponse)
    (hinv : ∀ itemId ∈ itemIdsOf lr, (api.getInventoryValues itemId).isOk = true) :
    ((itemIdsOf lr).flatMap (fun i => negativeEntriesOfRows loc dm (invRows api i)) ≠ [] ↔
      ∃ line ∈ lr.results.getD [], line.type = "ItemLine" ∧
        line.item_id.isNum = true ∧ isExcludedItemId line.item_id = false ∧
        ∃ invr, api.getInventoryValues line.item_id = Except.ok invr ∧
          ∃ row ∈ invr.results.getD [],
            (row.location_id = loc ∨ row.location_id.isNum = false) ∧
            qtyForCheck row < 0) := by
  constructor
  · intro hne
    rw [Ne, List.flatMap_eq_nil_iff] at hne
    push_neg at hne
    obtain ⟨i, hi, hne⟩ := hne
    obtain ⟨row, hrow, hrel, hq⟩ := (negativeEntriesOfRows_ne_nil_iff loc dm _).mp hne
    obtain ⟨line, hline, hchk, rfl⟩ := (mem_itemIdsOf i lr).mp hi
    obtain ⟨htype, hnum, hexc⟩ := (isCheckedItemLine_iff line).mp hchk
    have hok := hinv _ hi
    cases hfetch : api.getInventoryValues line.item_id with
    | error e => rw [hfetch] at hok; simp [Except.isOk, Except.toBool] at hok
    | ok invr =>
      refine ⟨line, hline, htype, hnum, hexc, invr, hfetch, row, ?_, ?_, hq⟩
      · rw [invRows, hfetch] at hrow
        exact hrow
      · exact (rowRelevant_iff loc row).mp hrel
  · rintro ⟨line, hline, htype, hnum, hexc, invr, hfetch, row, hrow, hrel, hq⟩
    rw [Ne, List.flatMap_eq_nil_iff]
    push_neg
    have hid : line.item_id ∈ itemIdsOf lr :=
      (mem_itemIdsOf _ lr).mpr
        ⟨line, hline, (isCheckedItemLine_iff line).mpr ⟨htype, hnum, hexc⟩, rfl⟩
    refine ⟨line.item_id, hid, ?_⟩
    refine (negativeEntriesOfRows_ne_nil_iff loc dm _).mpr ⟨row, ?_, ?_, hq⟩
    · rw [invRows, hfetch]
      exact hrow
    · exact (rowRelevant_iff loc row).mpr hrel

end InventoryNonNegativeStrategy

namespace InventoryNonNegativeStrategy

/-- C3: on a supported transaction (numeric id, numeric source_location_id,
type Ticket or Return) whose ticket-line and inventory fetches all succeed,
checkTx returns false exactly when some non-excluded merchandise (ItemLine)
line's item has an inventory row relevant to the transaction's location (the
row's location_id equals source_location_id, or it has no numeric
location_id) whose effective quantity (qty_available if numeric, else
qty_on_hand if numeric, else 0) is negative; with no non-excluded merchandise
lines, checkTx returns true.  Excluded items never contribute. -/
theorem checkTx_negative_inventory_spec
    (api : HeartlandApiClient) (baseUrl : String) (gm : Option GroupMeClient)
    (tx : HeartlandTransaction) (lr : TicketLinesResponse)
    (hsup : supports tx = true)
    (hlines : api.getTicketLines tx.id = Except.ok lr)
    (hinv : ∀ itemId ∈ itemIdsOf lr, (api.getInventoryValues itemId).isOk = true) :
    (checkTx api baseUrl gm tx = false ↔
      ∃ line ∈ lr.results.getD [], line.type = "ItemLine" ∧
        line.item_id.isNum = true ∧ isExcludedItemId line.item_id = false ∧
        ∃ invr, api.getInventoryValues line.item_id = Except.ok invr ∧
          ∃ row ∈ invr.results.getD [],
            (row.location_id = tx.source_location_id ∨ row.location_id.isNum = false) ∧
            qtyForCheck row < 0) ∧
    ((∀ line ∈ lr.results.getD [], isCheckedItemLine line = false) →
      checkTx api baseUrl gm tx = true) := by
  have hviol := exists_violation_iff api tx.source_location_id
    (buildDescMap (lr.results.getD []) []) lr hinv
  by_cases hids : itemIdsOf lr = []
  · have hchk : checkTx api baseUrl gm tx = true := by
      simp [checkTx, hlines, hids]
    refine ⟨?_, fun _ => hchk⟩
    rw [hchk]
    constructor
    · intro h
      exact absurd h (by simp)
    · rintro ⟨line, hline, htype, hnum, hexc, _⟩
      have hmem : line.item_id ∈ itemIdsOf lr :=
        (mem_itemIdsOf _ lr).mpr
          ⟨line, hline, (isCheckedItemLine_iff line).mpr ⟨htype, hnum, hexc⟩, rfl⟩
      rw [hids] at hmem
      simp at hmem
  · have hempty : (itemIdsOf lr).isEmpty = false := by
      cases h : itemIdsOf lr with
      | nil => exact absurd h hids
      | cons a t => simp
    have hok := collectNegatives_ok api tx.source_location_id
      (buildDescMap (lr.results.getD []) []) (itemIdsOf lr) [] hinv
    rw [List.nil_append] at hok
    have hchk : checkTx api baseUrl gm tx =
        (if ((itemIdsOf lr).flatMap
            (fun i => negativeEntriesOfRows tx.source_location_id
              (buildDescMap (lr.results.getD []) []) (invRows api i))).isEmpty
         then true else false) := by
      simp only [checkTx, hlines, hempty, Bool.false_eq_true, if_false, hok]
    constructor
    · rw [hchk]
      cases hn : ((itemIdsOf lr).flatMap
          (fun i => negativeEntriesOfRows tx.source_location_id
            (buildDescMap (lr.results.getD []) []) (invRows api i))).isEmpty with
      | true =>
        have hnil : (itemIdsOf lr).flatMap
            (fun i => negativeEntriesOfRows tx.source_location_id
              (buildDescMap (lr.results.getD []) []) (invRows api i)) = [] := by
          simpa [List.isEmpty_iff] using hn
        rw [if_pos rfl]
        constructor
        · intro h
          exact absurd h (by simp)
        · intro hrhs
          exact absurd hnil (hviol.mpr hrhs)
      | false =>
        have hne : (itemIdsOf lr).flatMap
            (fun i => negativeEntriesOfRows tx.source_location_id
              (buildDescMap (lr.results.getD []) []) (invRows api i)) ≠ [] := by
          intro h
          rw [h] at hn
          simp [List.isEmpty] at hn
        rw [if_neg (by simp)]
        exact ⟨fun _ => hviol.mp hne, fun _ => rfl⟩
    · intro hnone
      exfalso
      apply hids
      cases h : itemIdsOf lr with
      | nil => rfl
      | cons a t =>
        exfalso
        have ha : a ∈ itemIdsOf lr := by
          rw [h]
          exact List.mem_cons_self a t
        obtain ⟨line, hline, hchk2, rfl⟩ := (mem_itemIdsOf a lr).mp ha
        rw [hnone line hline] at hchk2
        cases hchk2

/-- C4: on a supported transaction, a failed ticket-lines fetch, or a failed
inventory fetch for any of the ticket's checked item ids, makes checkTx
return false: inability to verify is treated as failure, not as success and
not as a thrown error. -/
theorem checkTx_fetch_failure_fails
    (api : HeartlandApiClient) (baseUrl : String) (gm : Option GroupMeClient)
    (tx : HeartlandTransaction)
    (hsup : supports tx = true) :
    (api.getTicketLines tx.id = Except.error () →
      checkTx api baseUrl gm tx = false) ∧
    (∀ (lr : TicketLinesResponse) (itemId : JValue),
      api.getTicketLines tx.id = Except.ok lr →
      itemId ∈ itemIdsOf lr →
      api.getInventoryValues itemId = Except.error () →
      checkTx api baseUrl gm tx = false) := by
  constructor
  · intro herr
    simp [checkTx, herr]
  · intro lr itemId hlines hmem herr
    have hempty : (itemIdsOf lr).isEmpty = false := by
      cases h : itemIdsOf lr with
      | nil => rw [h] at hmem; simp at hmem
      | cons a t => simp
    have hcoll := collectNegatives_error api tx.source_location_id
      (buildDescMap (lr.results.getD []) []) (itemIdsOf lr) [] ⟨itemId, hmem, herr⟩
    simp [checkTx, hlines, hempty, hcoll]

end InventoryNonNegativeStrategy

/-- Concrete merchandise line used by the inventory witness scenario. -/
def invLineW : TicketLine := { id := 1, type := "ItemLine", item_id := JValue.num 7 }

/-- Concrete inventory row with negative availability at location 2. -/
def invRowW : InventoryValueRow :=
  { item_id := JValue.num 7, location_id := JValue.num 2,
    qty_available := JValue.num (-1) }

/-- Concrete ticket-lines response for the inventory witness scenario. -/
def invLinesRespW : TicketLinesResponse := { results := some [invLineW] }

/-- Concrete inventory-values response for the inventory witness scenario. -/
def invValuesRespW : InventoryValuesResponse := { results := some [invRowW] }

/-- A Heartland API stub whose fetches always succeed with the witness
data. -/
def invApiW : HeartlandApiClient :=
  { getTicketLines := fun _ => Except.ok invLinesRespW
    getInventoryValues := fun _ => Except.ok invValuesRespW }

/-- A supported Ticket at location 2. -/
def invTxW : HeartlandTransaction :=
  { id := JValue.num 10, type := JValue.str "Ticket",
    source_location_id := JValue.num 2 }

theorem InventoryNonNegativeStrategy.checkTx_negative_inventory_spec_witness :
    InventoryNonNegativeStrategy.checkTx invApiW "https://example" none invTxW = false :=
  (InventoryNonNegativeStrategy.checkTx_negative_inventory_spec invApiW "https://example"
    none invTxW invLinesRespW (by decide) rfl (by decide)).1.mpr
    ⟨invLineW, by decide, rfl, rfl, by decide, invValuesRespW, rfl, invRowW, by decide,
      Or.inl rfl, by decide⟩

/-- A Heartland API stub whose fetches always fail. -/
def failTicketApiW : HeartlandApiClient :=
  { getTicketLines := fun _ => Except.error ()
    getInventoryValues := fun _ => Except.error () }

theorem InventoryNonNegativeStrategy.checkTx_fetch_failure_fails_witness :
    InventoryNonNegativeStrategy.checkTx failTicketApiW "https://example" none invTxW = false :=
  (InventoryNonNegativeStrategy.checkTx_fetch_failure_fails failTicketApiW "https://example"
    none invTxW (by decide)).1 rfl

/-- A messaging client whose every send throws. -/
def failingGroupMe : GroupMeClient := { sendMessage := fun _ => Except.error () }

/-- A Ticket discounted by ten percent, for the notification-failure
scenario. -/
def txHighDiscountC9 : HeartlandTransaction :=
  { id := JValue.num 3, type := JValue.str "Ticket",
    original_subtotal := JValue.num 200, total_discounts := JValue.num 20 }

/-- C9: for the three notifying strategies the checkTx verdict never depends
on the messaging client — an erroring send is caught inside the strategy —
and once a failing condition is detected (high discount, negative inventory,
or an adjusted line) the verdict is false for every client. -/
theorem notification_errors_never_change_verdict :
    (∀ (tx : HeartlandTransaction) (gm gm' : Option GroupMeClient),
      HighDiscountTicketStrategy.checkTx gm tx = HighDiscountTicketStrategy.checkTx gm' tx) ∧
    (∀ (api : HeartlandApiClient) (b : String) (tx : HeartlandTransaction)
      (gm gm' : Option GroupMeClient),
      InventoryNonNegativeStrategy.checkTx api b gm tx =
        InventoryNonNegativeStrategy.checkTx api b gm' tx) ∧
    (∀ (api : HeartlandApiClient) (tx : HeartlandTransaction)
      (gm gm' : Option GroupMeClient),
      PriceAdjustedItemStrategy.checkTx api gm tx =
        PriceAdjustedItemStrategy.checkTx api gm' tx) ∧
    (∀ (tx : HeartlandTransaction) (gm : Option GroupMeClient) (td os : ℚ),
      tx.total_discounts = JValue.num td → tx.original_subtotal = JValue.num os →
      0 < os → 5 < td / os * 100 →
      HighDiscountTicketStrategy.checkTx gm tx = false) ∧
    (∀ (api : HeartlandApiClient) (b : String) (gm : Option GroupMeClient)
      (tx : HeartlandTransaction) (lr : TicketLinesResponse)
      (negs : List InventoryNonNegativeStrategy.NegativeInventoryEntry),
      api.getTicketLines tx.id = Except.ok lr →
      InventoryNonNegativeStrategy.itemIdsOf lr ≠ [] →
      InventoryNonNegativeStrategy.collectNegatives api tx.source_location_id
        (InventoryNonNegativeStrategy.buildDescMap (lr.results.getD []) [])
        (InventoryNonNegativeStrategy.itemIdsOf lr) [] = Except.ok negs →
      negs ≠ [] →
      InventoryNonNegativeStrategy.checkTx api b gm tx = false) ∧
    (∀ (api : HeartlandApiClient) (gm : Option GroupMeClient)
      (tx : HeartlandTransaction) (lr : TicketLinesResponse),
      api.getTicketLines tx.id = Except.ok lr →
      ((lr.results.getD []).filter (fun line => line.type == "ItemLine")).filterMap
        PriceAdjustedItemStrategy.toAdjustedItem ≠ [] →
      PriceAdjustedItemStrategy.checkTx api gm tx = false) := by
  refine ⟨?_, ?_, ?_, ?_, ?_, ?_⟩
  · intro tx gm gm'
    rfl
  · intro api b tx gm gm'
    rfl
  · intro api tx gm gm'
    rfl
  · intro tx gm td os htd hos hpos hgt
    simp only [HighDiscountTicketStrategy.checkTx, htd, hos, JValue.asNum]
    simp [not_le.mpr hpos, hgt]
  · intro api b gm tx lr negs hlines hids hcoll hnegs
    have hempty : (InventoryNonNegativeStrategy.itemIdsOf lr).isEmpty = false := by
      cases h : InventoryNonNegativeStrategy.itemIdsOf lr with
      | nil => exact absurd h hids
      | cons a t => simp
    have hnempty : negs.isEmpty = false := by
      cases h : negs with
      | nil => exact absurd h hnegs
      | cons a t => simp
    simp [InventoryNonNegativeStrategy.checkTx, hlines, hempty, hcoll, hnempty]
  · intro api gm tx lr hlines hadj
    have hlne : (lr.results.getD []).filter (fun line => line.type == "ItemLine") ≠ [] := by
      intro h
      apply hadj
      rw [h]
      rfl
    have hlempty :
        ((lr.results.getD []).filter (fun line => line.type == "ItemLine")).isEmpty = false := by
      cases h : (lr.results.getD []).filter (fun line => line.type == "ItemLine") with
      | nil => exact absurd h hlne
      | cons a t => simp
    have hlen : 0 < (((lr.results.getD []).filter
        (fun line => line.type == "ItemLine")).filterMap
          PriceAdjustedItemStrategy.toAdjustedItem).length :=
      List.length_pos.mpr hadj
    simp [PriceAdjustedItemStrategy.checkTx, hlines, hlempty, hlen]

theorem notification_errors_never_change_verdict_witness :
    HighDiscountTicketStrategy.checkTx (some failingGroupMe) txHighDiscountC9 = false :=
  notification_errors_never_change_verdict.2.2.2.1 txHighDiscountC9 (some failingGroupMe)
    20 200 rfl rfl (by norm_num) (by norm_num)
